import Mathlib

/-!
# Verification of the mqttrs MQTT 3.1.1 codec

Shallow embedding of the packet codec from the repository sources
(`src/decoder.rs`, `src/encoder.rs`, `src/connect.rs`, `src/publish.rs`,
`src/subscribe.rs`, `src/utils.rs`).

Buffers are byte lists (`List Nat`, each element a `u8` value `< 256`).
Rust's `usize`/`u16`/`u8` arithmetic is modelled on `Nat` with explicit
`% 2^w` at the points where the source casts.  Fallible operations return
`Except Fault _`; a Rust panic (out-of-bounds index, or the `bytes` crate's
`get_u16` assertion on a too-short buffer) is modelled by the distinguished
fault `Fault.crash`.  Functions that advance a cursor take and return an
explicit offset.
-/

namespace Mqttrs

/-- Error enum from `src/utils.rs` (`enum Error`).  The payload of
`InvalidString` (a `Utf8Error`) is not modelled; `InvalidProtocol` keeps its
`(name, level)` payload, the name being the raw protocol-name bytes. -/
inductive Error where
  | writeZero : Error
  | invalidPid : Error
  | invalidQos : Nat → Error
  | invalidConnectReturnCode : Nat → Error
  | invalidProtocol : List Nat → Nat → Error
  | invalidHeader : Error
  | invalidLength : Error
  | invalidString : Error
  deriving DecidableEq, Repr

/-- A fault of the Rust code: either a returned `Err(e)` or a panic
(out-of-bounds slice index / `bytes::Buf` assertion failure). -/
inductive Fault where
  | err : Error → Fault
  | crash : Fault
  deriving DecidableEq, Repr

/-- `enum QoS` from `src/utils.rs`. -/
inductive QoS where
  | atMostOnce : QoS
  | atLeastOnce : QoS
  | exactlyOnce : QoS
  deriving DecidableEq, Repr

/-- `QoS::to_u8` from `src/utils.rs`. -/
def QoS.toU8 : QoS → Nat
  | .atMostOnce => 0
  | .atLeastOnce => 1
  | .exactlyOnce => 2

/-- `QoS::from_u8` from `src/utils.rs`. -/
def QoS.fromU8 (b : Nat) : Except Error QoS :=
  match b with
  | 0 => .ok .atMostOnce
  | 1 => .ok .atLeastOnce
  | 2 => .ok .exactlyOnce
  | n => .error (.invalidQos n)

/-- `enum QosPid` from `src/utils.rs`; the `Pid` payload is the raw `u16`
value (the decoder establishes that it is non-zero). -/
inductive QosPid where
  | atMostOnce : QosPid
  | atLeastOnce : Nat → QosPid
  | exactlyOnce : Nat → QosPid
  deriving DecidableEq, Repr

/-- `enum PacketType` (the variant used by `src/decoder.rs`). -/
inductive PacketType where
  | connect | connack | publish
  | puback | pubrec | pubrel | pubcomp
  | subscribe | suback | unsubscribe | unsuback
  | pingreq | pingresp | disconnect
  deriving DecidableEq, Repr

/-- `struct Header` from `src/decoder.rs`. -/
structure Header where
  typ : PacketType
  dup : Bool
  qos : QoS
  retain : Bool
  deriving DecidableEq, Repr

/-- `Header::new` from `src/decoder.rs`: classify the first header byte
`hd` (a `u8`).  `hd >> 4` is `hd / 16`, `hd & 0b1111` is `hd % 16`,
`hd & 0b1000 != 0` is `hd / 8 % 2 = 1`, `(hd & 0b110) >> 1` is
`hd / 2 % 4`, `hd & 1` is `hd % 2`. -/
def Header.new (hd : Nat) : Except Error Header :=
  let flagsOk : Bool :=
    match hd / 16 with
    | 1 => hd % 16 == 0
    | 2 => hd % 16 == 0
    | 3 => true
    | 4 => hd % 16 == 0
    | 5 => hd % 16 == 0
    | 6 => hd % 16 == 2
    | 7 => hd % 16 == 0
    | 8 => hd % 16 == 2
    | 9 => hd % 16 == 0
    | 10 => hd % 16 == 2
    | 11 => hd % 16 == 0
    | 12 => hd % 16 == 0
    | 13 => hd % 16 == 0
    | 14 => hd % 16 == 0
    | _ => false
  let typ : PacketType :=
    match hd / 16 with
    | 1 => .connect
    | 2 => .connack
    | 3 => .publish
    | 4 => .puback
    | 5 => .pubrec
    | 6 => .pubrel
    | 7 => .pubcomp
    | 8 => .subscribe
    | 9 => .suback
    | 10 => .unsubscribe
    | 11 => .unsuback
    | 12 => .pingreq
    | 13 => .pingresp
    | 14 => .disconnect
    | _ => .connect
  if !flagsOk then .error .invalidHeader
  else
    match QoS.fromU8 (hd / 2 % 4) with
    | .error e => .error e
    | .ok q => .ok { typ := typ, dup := hd / 8 % 2 = 1, qos := q, retain := hd % 2 = 1 }

/-- Result of `read_header` (`src/decoder.rs`): `ok none` is "not enough
bytes yet" (buffer untouched), `ok (some (h, len, hsz))` gives the parsed
header, the remaining length and the number `hsz` of fixed-header bytes the
buffer was advanced past, `err e c` is a returned error after advancing the
buffer by `c` bytes (`Header::new` failing happens after `get_u8`, so `c = 1`
there; running out of continuation bytes errors before any advance, `c = 0`). -/
inductive RHResult where
  | ok : Option (Header × Nat × Nat) → RHResult
  | err : Error → Nat → RHResult
  deriving DecidableEq, Repr

/-- The `for pos in 0..=3` loop of `read_header` (`src/decoder.rs`), with
the iterations still to run as structural fuel (`pos = 4 - fuel`).  Each
length byte contributes its low 7 bits (`byte & 0x7F`, i.e. `byte % 128`)
shifted by `pos * 7` (i.e. `* 128 ^ pos`); the continuation bit
(`byte & 0x80`, i.e. `byte % 256 ≥ 128`) keeps the loop running; exhausting
all four iterations is `InvalidHeader`. -/
def readHeaderLoop (bs : List Nat) : Nat → Nat → Nat → RHResult
  | 0, _, _ => .err .invalidHeader 0
  | fuel + 1, pos, len =>
    if bs.length > pos + 1 then
      let byte := bs.getD (pos + 1) 0
      let len' := len + byte % 128 * 128 ^ pos
      if byte % 256 < 128 then
        if bs.length < 2 + pos + len' then .ok none
        else
          match Header.new (bs.getD 0 0) with
          | .error e => .err e 1
          | .ok h => .ok (some (h, len', pos + 2))
      else readHeaderLoop bs fuel (pos + 1) len'
    else .ok none

/-- `read_header` from `src/decoder.rs`. -/
def readHeader (bs : List Nat) : RHResult :=
  readHeaderLoop bs 4 0 0

/-- `enum Protocol` from `src/connect.rs`. -/
inductive Protocol where
  | mqtt311 : Protocol
  | mqisdp : Protocol
  deriving DecidableEq, Repr

/-- The bytes of the string `"MQTT"`. -/
def strMQTT : List Nat := [77, 81, 84, 84]

/-- The bytes of the string `"MQIsdp"`. -/
def strMQIsdp : List Nat := [77, 81, 73, 115, 100, 112]

/-- `Protocol::new` from `src/connect.rs`: only `("MQIsdp", 3)` and
`("MQTT", 4)` are accepted; anything else is `InvalidProtocol(name, 0)`
(the source stores level `0` in the error, not the actual level). -/
def Protocol.new (name : List Nat) (level : Nat) : Except Error Protocol :=
  if name = strMQIsdp ∧ level = 3 then .ok .mqisdp
  else if name = strMQTT ∧ level = 4 then .ok .mqtt311
  else .error (.invalidProtocol name 0)

/-- `struct LastWill` from `src/connect.rs`; `topic` is the UTF-8 bytes of
the `&str` field. -/
structure LastWill where
  topic : List Nat
  message : List Nat
  qos : QoS
  retain : Bool
  deriving DecidableEq, Repr

/-- `enum ConnectReturnCode` from `src/connect.rs`. -/
inductive ConnectReturnCode where
  | accepted | refusedProtocolVersion | refusedIdentifierRejected
  | serverUnavailable | badUsernamePassword | notAuthorized
  deriving DecidableEq, Repr

/-- `ConnectReturnCode::to_u8` from `src/connect.rs`. -/
def ConnectReturnCode.toU8 : ConnectReturnCode → Nat
  | .accepted => 0
  | .refusedProtocolVersion => 1
  | .refusedIdentifierRejected => 2
  | .serverUnavailable => 3
  | .badUsernamePassword => 4
  | .notAuthorized => 5

/-- `ConnectReturnCode::from_u8` from `src/connect.rs`. -/
def ConnectReturnCode.fromU8 (b : Nat) : Except Error ConnectReturnCode :=
  match b with
  | 0 => .ok .accepted
  | 1 => .ok .refusedProtocolVersion
  | 2 => .ok .refusedIdentifierRejected
  | 3 => .ok .serverUnavailable
  | 4 => .ok .badUsernamePassword
  | 5 => .ok .notAuthorized
  | n => .error (.invalidConnectReturnCode n)

/-- `struct Connect` from `src/connect.rs`; string fields are their UTF-8
bytes. -/
structure Connect where
  protocol : Protocol
  keepAlive : Nat
  clientId : List Nat
  cleanSession : Bool
  lastWill : Option LastWill
  username : Option (List Nat)
  password : Option (List Nat)
  deriving DecidableEq, Repr

/-- `struct Connack` from `src/connect.rs`. -/
structure Connack where
  sessionPresent : Bool
  code : ConnectReturnCode
  deriving DecidableEq, Repr

/-- `struct Publish` from `src/publish.rs`. -/
structure Publish where
  dup : Bool
  qospid : QosPid
  retain : Bool
  topicName : List Nat
  payload : List Nat
  deriving DecidableEq, Repr

/-- `struct Subscribe` from `src/subscribe.rs`: a Pid plus the raw topic
bytes (topics are only parsed lazily by the `topics()` iterator). -/
structure Subscribe where
  pid : Nat
  topicBuf : List Nat
  deriving DecidableEq, Repr

/-- `struct Suback` from `src/subscribe.rs`. -/
structure Suback where
  pid : Nat
  returnCodesBuf : List Nat
  deriving DecidableEq, Repr

/-- `struct Unsubscribe` from `src/subscribe.rs`. -/
structure Unsubscribe where
  pid : Nat
  topicBuf : List Nat
  deriving DecidableEq, Repr

/-- `enum Packet` (the variant matching `src/decoder.rs` / `src/encoder.rs`):
Puback/Pubrec/Pubrel/Pubcomp/Unsuback carry a bare Pid (a non-zero `u16`,
held here as its raw value). -/
inductive Packet where
  | connect : Connect → Packet
  | connack : Connack → Packet
  | publish : Publish → Packet
  | puback : Nat → Packet
  | pubrec : Nat → Packet
  | pubrel : Nat → Packet
  | pubcomp : Nat → Packet
  | subscribe : Subscribe → Packet
  | suback : Suback → Packet
  | unsubscribe : Unsubscribe → Packet
  | unsuback : Nat → Packet
  | pingreq : Packet
  | pingresp : Packet
  | disconnect : Packet
  deriving DecidableEq, Repr

/-! ## Decode-side primitives

`src/decoder.rs` reads through the `bytes::Buf` trait; `get_u8`/`get_u16`
assert that enough bytes remain and panic otherwise (modelled as
`Fault.crash`).  The per-type body decoders receive exactly the
`remaining_len`-byte body slice and read from offset 0. -/

/-- A single byte read (`Buf::get_u8`, or a direct `buf[offset]` index):
panics when out of bounds. -/
def getU8 (bs : List Nat) (o : Nat) : Except Fault (Nat × Nat) :=
  if o < bs.length then .ok (bs.getD o 0 % 256, o + 1) else .error .crash

/-- A big-endian `u16` read (`Buf::get_u16`): panics when fewer than two
bytes remain. -/
def getU16 (bs : List Nat) (o : Nat) : Except Fault (Nat × Nat) :=
  if o + 2 ≤ bs.length then
    .ok (bs.getD o 0 % 256 * 256 + bs.getD (o + 1) 0 % 256, o + 2)
  else .error .crash

/-- `read_bytes` from `src/decoder.rs`: `get_u16` length prefix (panics on
fewer than 2 bytes), then `InvalidLength` if the declared length exceeds the
remaining bytes. -/
def readBytes (bs : List Nat) (o : Nat) : Except Fault (List Nat × Nat) := do
  let (len, o₁) ← getU16 bs o
  if len > bs.length - o₁ then .error (.err .invalidLength)
  else .ok ((bs.drop o₁).take len, o₁ + len)

/-- UTF-8 validity of a byte sequence, as checked by Rust's
`String::from_utf8` / `str::from_utf8`. -/
def isValidUtf8 : List Nat → Bool
  | [] => true
  | b :: rest =>
    if b < 128 then isValidUtf8 rest
    else if 194 ≤ b ∧ b ≤ 223 then
      match rest with
      | c₁ :: r => decide (128 ≤ c₁ ∧ c₁ ≤ 191) && isValidUtf8 r
      | [] => false
    else if 224 ≤ b ∧ b ≤ 239 then
      match rest with
      | c₁ :: c₂ :: r =>
        let lo₁ : Nat := if b = 224 then 160 else 128
        let hi₁ : Nat := if b = 237 then 159 else 191
        decide (lo₁ ≤ c₁ ∧ c₁ ≤ hi₁) && decide (128 ≤ c₂ ∧ c₂ ≤ 191) && isValidUtf8 r
      | _ => false
    else if 240 ≤ b ∧ b ≤ 244 then
      match rest with
      | c₁ :: c₂ :: c₃ :: r =>
        let lo₁ : Nat := if b = 240 then 144 else 128
        let hi₁ : Nat := if b = 244 then 143 else 191
        decide (lo₁ ≤ c₁ ∧ c₁ ≤ hi₁) && decide (128 ≤ c₂ ∧ c₂ ≤ 191) &&
          decide (128 ≤ c₃ ∧ c₃ ≤ 191) && isValidUtf8 r
      | _ => false
    else false

/-- `read_string` from `src/decoder.rs`: `read_bytes` plus UTF-8
validation (`InvalidString` on failure). -/
def readStr (bs : List Nat) (o : Nat) : Except Fault (List Nat × Nat) := do
  let (b, o₁) ← readBytes bs o
  if isValidUtf8 b then .ok (b, o₁) else .error (.err .invalidString)

/-- Lift a plain `Error` result into the fault monad. -/
def liftE {α : Type} : Except Error α → Except Fault α
  | .ok a => .ok a
  | .error e => .error (.err e)

/-- `Pid::from_buffer` from `src/utils.rs`: `get_u16` (panics on a short
buffer) then `Pid::try_from`, which rejects 0 with `InvalidPid`. -/
def Pid.fromBuffer (bs : List Nat) (o : Nat) : Except Fault (Nat × Nat) := do
  let (v, o₁) ← getU16 bs o
  if v = 0 then .error (.err .invalidPid) else .ok (v, o₁)

/-- `Protocol::from_buffer` from `src/connect.rs`: length-prefixed protocol
name, then the level byte (a direct index, panicking when absent). -/
def Protocol.fromBuffer (bs : List Nat) (o : Nat) : Except Fault (Protocol × Nat) := do
  let (name, o₁) ← readStr bs o
  let (level, o₂) ← getU8 bs o₁
  let p ← liftE (Protocol.new name level)
  .ok (p, o₂)

/-- `Connect::from_buffer` from `src/connect.rs`, reading the
`remaining_len`-byte body slice from offset 0.  Flag bits: will `0b100`,
will-qos `0b11000`, will-retain `0b0010_0000`, username `0b1000_0000`,
password `0b0100_0000`, clean-session `0b10`.  The flags and keep-alive
bytes are direct indexes (panic when the body is shorter). -/
def Connect.fromBuffer (bs : List Nat) : Except Fault (Connect × Nat) := do
  let (protocol, o₁) ← Protocol.fromBuffer bs 0
  let (connectFlags, _) ← getU8 bs o₁
  let (kaHi, _) ← getU8 bs (o₁ + 1)
  let (kaLo, _) ← getU8 bs (o₁ + 2)
  let keepAlive := kaHi * 256 + kaLo
  let o₂ := o₁ + 3
  let (clientId, o₃) ← readStr bs o₂
  let (lastWill, o₄) ←
    if connectFlags / 4 % 2 = 1 then do
      let (willTopic, oa) ← readStr bs o₃
      let (willMessage, ob) ← readBytes bs oa
      let willQos ← liftE (QoS.fromU8 (connectFlags / 8 % 4))
      .ok (some { topic := willTopic, message := willMessage, qos := willQos,
                  retain := connectFlags / 32 % 2 == 1 }, ob)
    else .ok ((none : Option LastWill), o₃)
  let (username, o₅) ←
    if connectFlags / 128 % 2 = 1 then do
      let (u, oc) ← readStr bs o₄
      .ok (some u, oc)
    else .ok ((none : Option (List Nat)), o₄)
  let (password, o₆) ←
    if connectFlags / 64 % 2 = 1 then do
      let (p, od) ← readBytes bs o₅
      .ok (some p, od)
    else .ok ((none : Option (List Nat)), o₅)
  .ok ({ protocol := protocol, keepAlive := keepAlive, clientId := clientId,
         cleanSession := connectFlags / 2 % 2 == 1, lastWill := lastWill,
         username := username, password := password }, o₆)

/-- `Connack::from_buffer` from `src/connect.rs`: two direct byte indexes
(flags, return code). -/
def Connack.fromBuffer (bs : List Nat) : Except Fault (Connack × Nat) := do
  let (flags, _) ← getU8 bs 0
  let (returnCode, _) ← getU8 bs 1
  let code ← liftE (ConnectReturnCode.fromU8 returnCode)
  .ok ({ sessionPresent := flags % 2 == 1, code := code }, 2)

/-- `Publish::from_buffer` from `src/publish.rs`, over the body slice
(`payload_end` is the slice length): topic, then a Pid iff the header QoS
is not AtMostOnce, then the rest of the slice as payload. -/
def Publish.fromBuffer (h : Header) (bs : List Nat) : Except Fault (Publish × Nat) := do
  let (topicName, o₁) ← readStr bs 0
  let (qospid, o₂) ← (
    match h.qos with
    | .atMostOnce => .ok (QosPid.atMostOnce, o₁)
    | .atLeastOnce => do
      let (pid, o) ← Pid.fromBuffer bs o₁
      .ok (QosPid.atLeastOnce pid, o)
    | .exactlyOnce => do
      let (pid, o) ← Pid.fromBuffer bs o₁
      .ok (QosPid.exactlyOnce pid, o) : Except Fault (QosPid × Nat))
  .ok ({ dup := h.dup, qospid := qospid, retain := h.retain,
         topicName := topicName, payload := bs.drop o₂ }, bs.length)

/-- `Subscribe::from_buffer` from `src/subscribe.rs`: Pid, then the rest of
the body slice stored raw as `topic_buf`. -/
def Subscribe.fromBuffer (bs : List Nat) : Except Fault (Subscribe × Nat) := do
  let (pid, o₁) ← Pid.fromBuffer bs 0
  .ok ({ pid := pid, topicBuf := bs.drop o₁ }, bs.length)

/-- `Suback::from_buffer` from `src/subscribe.rs`. -/
def Suback.fromBuffer (bs : List Nat) : Except Fault (Suback × Nat) := do
  let (pid, o₁) ← Pid.fromBuffer bs 0
  .ok ({ pid := pid, returnCodesBuf := bs.drop o₁ }, bs.length)

/-- `Unsubscribe::from_buffer` from `src/subscribe.rs`. -/
def Unsubscribe.fromBuffer (bs : List Nat) : Except Fault (Unsubscribe × Nat) := do
  let (pid, o₁) ← Pid.fromBuffer bs 0
  .ok ({ pid := pid, topicBuf := bs.drop o₁ }, bs.length)

/-- `read_packet` from `src/decoder.rs`: dispatch on the packet type over
the `remaining_len`-byte body slice.  Note that no variant checks that the
body decoder consumed the whole slice; leftover bytes are ignored. -/
def readPacket (h : Header) (body : List Nat) : Except Fault Packet :=
  match h.typ with
  | .pingreq => .ok .pingreq
  | .pingresp => .ok .pingresp
  | .disconnect => .ok .disconnect
  | .connect => do let (c, _) ← Connect.fromBuffer body; .ok (.connect c)
  | .connack => do let (c, _) ← Connack.fromBuffer body; .ok (.connack c)
  | .publish => do let (p, _) ← Publish.fromBuffer h body; .ok (.publish p)
  | .puback => do let (pid, _) ← Pid.fromBuffer body 0; .ok (.puback pid)
  | .pubrec => do let (pid, _) ← Pid.fromBuffer body 0; .ok (.pubrec pid)
  | .pubrel => do let (pid, _) ← Pid.fromBuffer body 0; .ok (.pubrel pid)
  | .pubcomp => do let (pid, _) ← Pid.fromBuffer body 0; .ok (.pubcomp pid)
  | .subscribe => do let (s, _) ← Subscribe.fromBuffer body; .ok (.subscribe s)
  | .suback => do let (s, _) ← Suback.fromBuffer body; .ok (.suback s)
  | .unsubscribe => do let (u, _) ← Unsubscribe.fromBuffer body; .ok (.unsubscribe u)
  | .unsuback => do let (pid, _) ← Pid.fromBuffer body 0; .ok (.unsuback pid)

/-- Result of `decode`: `ok p consumed` is `Ok(p)` with the buffer advanced
by `consumed` bytes, `err e consumed` likewise for `Err(e)`, and `crash` is
a Rust panic. -/
inductive DecodeResult where
  | ok : Option Packet → Nat → DecodeResult
  | err : Error → Nat → DecodeResult
  | crash : DecodeResult
  deriving DecidableEq, Repr

/-- `decode` from `src/decoder.rs`: read the header; when a full packet is
present, slice out exactly `remaining_len` body bytes, advance the buffer
past the whole packet, and only then look at the body parse result. -/
def decode (bs : List Nat) : DecodeResult :=
  match readHeader bs with
  | .err e c => .err e c
  | .ok none => .ok none 0
  | .ok (some (h, remainingLen, hsz)) =>
    match readPacket h ((bs.drop hsz).take remainingLen) with
    | .ok p => .ok (some p) (hsz + remainingLen)
    | .error (.err e) => .err e (hsz + remainingLen)
    | .error .crash => .crash

instance {ε α : Type} [DecidableEq ε] [DecidableEq α] : DecidableEq (Except ε α)
  | .ok a, .ok b =>
    if h : a = b then .isTrue (by rw [h]) else .isFalse (by simp [h])
  | .ok _, .error _ => .isFalse (by simp)
  | .error _, .ok _ => .isFalse (by simp)
  | .error e, .error f =>
    if h : e = f then .isTrue (by rw [h]) else .isFalse (by simp [h])

/-! ## Encode-side primitives (`src/encoder.rs`)

Encoders write into a caller-supplied fixed-size buffer at a moving offset.
`write_u8` is an unchecked index assignment (`buf[*offset] = val`): it
panics (`Fault.crash`) when the offset is past the end.  `check_remaining`
is the explicit capacity check returning `WriteZero`. -/

/-- `write_u8` from `src/encoder.rs` (the value is a `u8`; casts at the
call sites are modelled by the `% 256`). -/
def writeU8 (buf : List Nat) (o : Nat) (v : Nat) : Except Fault (List Nat × Nat) :=
  if o < buf.length then .ok (buf.set o (v % 256), o + 1) else .error .crash

/-- `check_remaining` from `src/encoder.rs`: `buf[*offset..].len() < len`
fails with `WriteZero`. -/
def checkRemaining (buf : List Nat) (o : Nat) (len : Nat) : Except Fault Unit :=
  if buf.length - o < len then .error (.err .writeZero) else .ok ()

/-- The do-while loop of `write_length` (`src/encoder.rs`) emitting the
variable-length encoding of `x` (low 7 bits per byte, continuation bit
`0x80` while the rest is non-zero).  The range check in `write_length`
bounds the value below `2^28`, so the loop runs at most 4 times; the fuel
is an artefact of the embedding and never runs out on checked inputs. -/
def writeVarintLoop (buf : List Nat) (o x : Nat) : Nat → Except Fault (List Nat × Nat)
  | 0 => .error .crash
  | fuel + 1 => do
    let byte := x % 128
    let x' := x / 128
    let byte := if x' > 0 then byte + 128 else byte
    let (buf₁, o₁) ← writeU8 buf o byte
    if x' = 0 then .ok (buf₁, o₁) else writeVarintLoop buf₁ o₁ x' fuel

/-- `write_length` from `src/encoder.rs`: capacity check for the
remaining-length bytes plus `len` further body bytes, then the varint;
returns `len` plus the varint size. -/
def writeLength (buf : List Nat) (o len : Nat) : Except Fault (Nat × List Nat × Nat) := do
  let writeLen ←
    if len ≤ 127 then do checkRemaining buf o (len + 1); (.ok (len + 1) : Except Fault Nat)
    else if len ≤ 16383 then do checkRemaining buf o (len + 2); .ok (len + 2)
    else if len ≤ 2097151 then do checkRemaining buf o (len + 3); .ok (len + 3)
    else if len ≤ 268435455 then do checkRemaining buf o (len + 4); .ok (len + 4)
    else .error (.err .invalidLength)
  let (buf₁, o₁) ← writeVarintLoop buf o len 4
  .ok (writeLen, buf₁, o₁)

/-- `write_u16` from `src/encoder.rs`: big-endian, high byte
`(val >> 8) as u8` then `val & 0xFF`. -/
def writeU16 (buf : List Nat) (o v : Nat) : Except Fault (List Nat × Nat) := do
  let (buf₁, o₁) ← writeU8 buf o (v / 256)
  writeU8 buf₁ o₁ (v % 256)

/-- Write a run of raw bytes one by one (the `for &byte in bytes` loops of
`src/encoder.rs` / `src/connect.rs` / `src/publish.rs`). -/
def writeAll (buf : List Nat) (o : Nat) : List Nat → Except Fault (List Nat × Nat)
  | [] => .ok (buf, o)
  | b :: rest => do
    let (buf₁, o₁) ← writeU8 buf o b
    writeAll buf₁ o₁ rest

/-- `write_bytes` from `src/encoder.rs`: `bytes.len() as u16` length prefix
(truncating past 65535), then the bytes. -/
def writeBytes (buf : List Nat) (o : Nat) (bytes : List Nat) : Except Fault (List Nat × Nat) := do
  let (buf₁, o₁) ← writeU16 buf o (bytes.length % 65536)
  writeAll buf₁ o₁ bytes

/-- `write_string` from `src/encoder.rs`. -/
def writeString (buf : List Nat) (o : Nat) (s : List Nat) : Except Fault (List Nat × Nat) :=
  writeBytes buf o s

/-- `Protocol::to_buffer` from `src/connect.rs`.  NOTE (faithful to the
source): the MQIsdp arm writes `[0, 4, 'M', 'Q', 'i', 's', 'd', 'p', 4]` —
a length prefix of 4 in front of a six-byte lowercase name and level 4,
which its own `Protocol::new` (expecting `("MQIsdp", 3)`) rejects. -/
def Protocol.toBuffer (p : Protocol) (buf : List Nat) (o : Nat) :
    Except Fault (List Nat × Nat) :=
  match p with
  | .mqtt311 => writeAll buf o [0, 4, 77, 81, 84, 84, 4]
  | .mqisdp => writeAll buf o [0, 4, 77, 81, 105, 115, 100, 112, 4]

/-- The connect-flags byte built by `Connect::to_buffer`
(`src/connect.rs`): clean-session `0b10`, username `0b1000_0000`, password
`0b0100_0000`, will `0b100` plus its QoS in bits 3–4 and retain
`0b0010_0000`. -/
def Connect.flagsByte (c : Connect) : Nat :=
  (if c.cleanSession then 2 else 0) +
  (if c.username.isSome then 128 else 0) +
  (if c.password.isSome then 64 else 0) +
  (match c.lastWill with
   | some w => 4 + w.qos.toU8 * 8 + (if w.retain then 32 else 0)
   | none => 0)

/-- The remaining-length computed by `Connect::to_buffer`
(`src/connect.rs`): `6 + 1 + 1` for protocol name, level and flags
(regardless of the protocol variant — for MQIsdp the nine bytes actually
written are counted as seven), plus client id, keep-alive and the optional
fields. -/
def Connect.bodyLength (c : Connect) : Nat :=
  6 + 1 + 1 + (2 + c.clientId.length) + 2 +
  (match c.username with | some u => u.length + 2 | none => 0) +
  (match c.password with | some p => p.length + 2 | none => 0) +
  (match c.lastWill with | some w => w.message.length + w.topic.length + 4 | none => 0)

/-- `Connect::to_buffer` from `src/connect.rs`. -/
def Connect.toBuffer (c : Connect) (buf : List Nat) (o : Nat) :
    Except Fault (Nat × List Nat × Nat) := do
  let length := c.bodyLength
  checkRemaining buf o (length + 1)
  let (buf, o) ← writeU8 buf o 16
  let (writeLen, buf, o) ← writeLength buf o length
  let (buf, o) ← Protocol.toBuffer c.protocol buf o
  let (buf, o) ← writeU8 buf o c.flagsByte
  let (buf, o) ← writeU16 buf o c.keepAlive
  let (buf, o) ← writeString buf o c.clientId
  let (buf, o) ←
    match c.lastWill with
    | some w => do
      let (buf, o) ← writeString buf o w.topic
      writeBytes buf o w.message
    | none => .ok (buf, o)
  let (buf, o) ←
    match c.username with
    | some u => writeString buf o u
    | none => .ok (buf, o)
  let (buf, o) ←
    match c.password with
    | some p => writeBytes buf o p
    | none => .ok (buf, o)
  .ok (writeLen + 1, buf, o)

/-- `Connack::to_buffer` from `src/connect.rs`. -/
def Connack.toBuffer (c : Connack) (buf : List Nat) (o : Nat) :
    Except Fault (Nat × List Nat × Nat) := do
  checkRemaining buf o 4
  let (buf, o) ← writeU8 buf o 32
  let (buf, o) ← writeU8 buf o 2
  let (buf, o) ← writeU8 buf o (if c.sessionPresent then 1 else 0)
  let (buf, o) ← writeU8 buf o c.code.toU8
  .ok (4, buf, o)

/-- `Publish::to_buffer` from `src/publish.rs`. -/
def Publish.toBuffer (p : Publish) (buf : List Nat) (o : Nat) :
    Except Fault (Nat × List Nat × Nat) := do
  let header :=
    (match p.qospid with
     | .atMostOnce => 48
     | .atLeastOnce _ => 50
     | .exactlyOnce _ => 52) +
    (if p.dup then 8 else 0) + (if p.retain then 1 else 0)
  checkRemaining buf o 1
  let (buf, o) ← writeU8 buf o header
  let length := p.topicName.length +
    (match p.qospid with | .atMostOnce => 2 | _ => 4) + p.payload.length
  let (writeLen, buf, o) ← writeLength buf o length
  let (buf, o) ← writeString buf o p.topicName
  let (buf, o) ←
    match p.qospid with
    | .atMostOnce => .ok (buf, o)
    | .atLeastOnce pid => writeU16 buf o pid
    | .exactlyOnce pid => writeU16 buf o pid
  let (buf, o) ← writeAll buf o p.payload
  .ok (writeLen + 1, buf, o)

/-- Modelled from the spec: the slice-based `read_str`/`read_bytes` helper
used by `SubscribeTopic::from_buffer` and the `topics()` iterators of
`src/subscribe.rs` is not among the source files (only the `bytes::Buf`
variant in `src/decoder.rs` is).  Per spec §4.4, a length-prefixed field
whose declared length exceeds the remaining bytes in the slice — including
a missing two-byte prefix itself — is an `InvalidLength` error, and string
bytes failing UTF-8 validation are `InvalidString`. -/
def readStrChecked (bs : List Nat) (o : Nat) : Except Fault (List Nat × Nat) := do
  if o + 2 > bs.length then .error (.err .invalidLength)
  else
    let len := bs.getD o 0 % 256 * 256 + bs.getD (o + 1) 0 % 256
    if len > bs.length - (o + 2) then .error (.err .invalidLength)
    else
      let b := (bs.drop (o + 2)).take len
      if isValidUtf8 b then .ok (b, o + 2 + len) else .error (.err .invalidString)

/-- `SubscribeTopic::from_buffer` from `src/subscribe.rs`: a topic string
followed by one QoS byte (a direct index, panicking when absent). -/
def SubscribeTopic.fromBuffer (bs : List Nat) (o : Nat) :
    Except Fault ((List Nat × QoS) × Nat) := do
  let (topicPath, o₁) ← readStrChecked bs o
  let (q, o₂) ← getU8 bs o₁
  let qos ← liftE (QoS.fromU8 q)
  .ok ((topicPath, qos), o₂)

/-- The `topics()` iterator of `Subscribe` (`src/subscribe.rs`): repeatedly
parse `SubscribeTopic`s, stopping at the first returned error (`.ok()`
turns it into `None`); a panic propagates.  Each step consumes at least
three bytes, so `bs.length + 1` fuel is never exhausted. -/
def subscribeTopicsAux (bs : List Nat) : Nat → Nat → Except Fault (List (List Nat × QoS))
  | _, 0 => .ok []
  | o, fuel + 1 =>
    match SubscribeTopic.fromBuffer bs o with
    | .error (.err _) => .ok []
    | .error .crash => .error .crash
    | .ok (t, o') => do
      let rest ← subscribeTopicsAux bs o' fuel
      .ok (t :: rest)

/-- All topics yielded by `Subscribe::topics()`. -/
def subscribeTopics (bs : List Nat) : Except Fault (List (List Nat × QoS)) :=
  subscribeTopicsAux bs 0 (bs.length + 1)

/-- `SubscribeReturnCodes::from_buffer` from `src/subscribe.rs`: one direct
byte index (panicking at the end of the buffer), `0x80` is failure,
otherwise a QoS. `true` in the result means failure. -/
def SubscribeReturnCodes.fromBuffer (bs : List Nat) (o : Nat) :
    Except Fault ((Bool × QoS) × Nat) := do
  let (code, o₁) ← getU8 bs o
  if code = 128 then .ok ((true, .atMostOnce), o₁)
  else do
    let q ← liftE (QoS.fromU8 code)
    .ok ((false, q), o₁)

/-- `SubscribeReturnCodes::to_u8` from `src/subscribe.rs`. -/
def SubscribeReturnCodes.toU8 : Bool × QoS → Nat
  | (true, _) => 128
  | (false, q) => q.toU8

/-- The `return_codes()` iterator of `Suback` (`src/subscribe.rs`).  Note
that `SubscribeReturnCodes::from_buffer` indexes the buffer directly, so
reaching the end of the buffer panics rather than ending the iteration. -/
def subackCodesAux (bs : List Nat) : Nat → Nat → Except Fault (List (Bool × QoS))
  | _, 0 => .ok []
  | o, fuel + 1 =>
    match SubscribeReturnCodes.fromBuffer bs o with
    | .error (.err _) => .ok []
    | .error .crash => .error .crash
    | .ok (rc, o') => do
      let rest ← subackCodesAux bs o' fuel
      .ok (rc :: rest)

/-- All return codes yielded by `Suback::return_codes()`. -/
def subackCodes (bs : List Nat) : Except Fault (List (Bool × QoS)) :=
  subackCodesAux bs 0 (bs.length + 1)

/-- `Subscribe::to_buffer` from `src/subscribe.rs`. -/
def Subscribe.toBuffer (s : Subscribe) (buf : List Nat) (o : Nat) :
    Except Fault (Nat × List Nat × Nat) := do
  checkRemaining buf o 1
  let (buf, o) ← writeU8 buf o 130
  let topics ← subscribeTopics s.topicBuf
  let length := 2 + (topics.map (fun t => t.1.length + 2 + 1)).sum
  let (writeLen, buf, o) ← writeLength buf o length
  let (buf, o) ← writeU16 buf o s.pid
  let (buf, o) ← (topics.foldlM (fun (st : List Nat × Nat) t => do
    let (b₁, o₁) ← writeString st.1 st.2 t.1
    writeU8 b₁ o₁ t.2.toU8) (buf, o) : Except Fault (List Nat × Nat))
  .ok (writeLen + 1, buf, o)

/-- `Unsubscribe::to_buffer` from `src/subscribe.rs`; its `topics()`
iterator is `read_str` applied repeatedly, errors ending the iteration. -/
def unsubscribeTopicsAux (bs : List Nat) : Nat → Nat → Except Fault (List (List Nat))
  | _, 0 => .ok []
  | o, fuel + 1 =>
    match readStrChecked bs o with
    | .error (.err _) => .ok []
    | .error .crash => .error .crash
    | .ok (t, o') => do
      let rest ← unsubscribeTopicsAux bs o' fuel
      .ok (t :: rest)

/-- All topics yielded by `Unsubscribe::topics()`. -/
def unsubscribeTopics (bs : List Nat) : Except Fault (List (List Nat)) :=
  unsubscribeTopicsAux bs 0 (bs.length + 1)

/-- `Unsubscribe::to_buffer` from `src/subscribe.rs`. -/
def Unsubscribe.toBuffer (u : Unsubscribe) (buf : List Nat) (o : Nat) :
    Except Fault (Nat × List Nat × Nat) := do
  let topics ← unsubscribeTopics u.topicBuf
  let length := 2 + (topics.map (fun t => 2 + t.length)).sum
  checkRemaining buf o 1
  let (buf, o) ← writeU8 buf o 162
  let (writeLen, buf, o) ← writeLength buf o length
  let (buf, o) ← writeU16 buf o u.pid
  let (buf, o) ← (topics.foldlM (fun (st : List Nat × Nat) t =>
    writeString st.1 st.2 t) (buf, o) : Except Fault (List Nat × Nat))
  .ok (writeLen + 1, buf, o)

/-- `Suback::to_buffer` from `src/subscribe.rs`. -/
def Suback.toBuffer (s : Suback) (buf : List Nat) (o : Nat) :
    Except Fault (Nat × List Nat × Nat) := do
  let length := 2 + s.returnCodesBuf.length
  checkRemaining buf o 1
  let (buf, o) ← writeU8 buf o 144
  let (writeLen, buf, o) ← writeLength buf o length
  let (buf, o) ← writeU16 buf o s.pid
  let codes ← subackCodes s.returnCodesBuf
  let (buf, o) ← (codes.foldlM (fun (st : List Nat × Nat) rc =>
    writeU8 st.1 st.2 (SubscribeReturnCodes.toU8 rc)) (buf, o) :
      Except Fault (List Nat × Nat))
  .ok (writeLen + 1, buf, o)

/-- The fixed four-byte encoders of `encode_slice` (`src/encoder.rs`) for
the bare-Pid packets: capacity check for 4 bytes, header byte, length 2,
then the Pid. -/
def encodePidPacket (headerByte pid : Nat) (buf : List Nat) (o : Nat) :
    Except Fault (Nat × List Nat × Nat) := do
  checkRemaining buf o 4
  let (buf, o) ← writeU8 buf o headerByte
  let (buf, o) ← writeU8 buf o 2
  let (buf, o) ← writeU16 buf o pid
  .ok (4, buf, o)

/-- The fixed two-byte encoders of `encode_slice` (`src/encoder.rs`) for
the empty packets. -/
def encodeEmptyPacket (headerByte : Nat) (buf : List Nat) (o : Nat) :
    Except Fault (Nat × List Nat × Nat) := do
  checkRemaining buf o 2
  let (buf, o) ← writeU8 buf o headerByte
  let (buf, o) ← writeU8 buf o 0
  .ok (2, buf, o)

/-- `encode_slice` from `src/encoder.rs`.  Returns the reported byte count,
the final buffer and the final write offset. -/
def encodeSlice (p : Packet) (buf : List Nat) : Except Fault (Nat × List Nat × Nat) :=
  match p with
  | .connect c => c.toBuffer buf 0
  | .connack c => c.toBuffer buf 0
  | .publish pb => pb.toBuffer buf 0
  | .puback pid => encodePidPacket 64 pid buf 0
  | .pubrec pid => encodePidPacket 80 pid buf 0
  | .pubrel pid => encodePidPacket 98 pid buf 0
  | .pubcomp pid => encodePidPacket 112 pid buf 0
  | .subscribe s => s.toBuffer buf 0
  | .suback s => s.toBuffer buf 0
  | .unsubscribe u => u.toBuffer buf 0
  | .unsuback pid => encodePidPacket 176 pid buf 0
  | .pingreq => encodeEmptyPacket 192 buf 0
  | .pingresp => encodeEmptyPacket 208 buf 0
  | .disconnect => encodeEmptyPacket 224 buf 0

/-! ## Pid arithmetic (`src/utils.rs`) -/

/-- `Pid::try_from(u16)` from `src/utils.rs`: `NonZeroU16::new` fails on 0
with `InvalidPid`; the value `u` is a `u16` (`< 65536`). -/
def pidTryFrom (u : Nat) : Except Error Nat :=
  if u = 0 then .error .invalidPid else .ok u

/-- `impl Add<u16> for Pid` from `src/utils.rs`: `overflowing_add`, and on
overflow the wrapped value plus one. -/
def pidAdd (p d : Nat) : Nat :=
  if p + d < 65536 then p + d else (p + d) % 65536 + 1

/-- `impl Sub<u16> for Pid` from `src/utils.rs`: `overflowing_sub`; a
wrapped value of 0 becomes `u16::MAX`, and on borrow the wrapped value
minus one. -/
def pidSub (p d : Nat) : Nat :=
  if (p + 65536 - d) % 65536 = 0 then 65535
  else if p < d then (p + 65536 - d) % 65536 - 1
  else (p + 65536 - d) % 65536

/-! ## Statements taken from the spec's wording -/

/-- The packet type the claim assigns to a type nibble 1–14 (claim C5 /
spec §4.2); nibbles 0 and 15 never reach this table. -/
def claimTypeOf (t : Nat) : PacketType :=
  match t with
  | 1 => .connect
  | 2 => .connack
  | 3 => .publish
  | 4 => .puback
  | 5 => .pubrec
  | 6 => .pubrel
  | 7 => .pubcomp
  | 8 => .subscribe
  | 9 => .suback
  | 10 => .unsubscribe
  | 11 => .unsuback
  | 12 => .pingreq
  | 13 => .pingresp
  | _ => .disconnect

/-- The QoS of a two-bit pattern 0–2 (pattern 3 never reaches this). -/
def claimQosOf (q : Nat) : QoS :=
  match q with
  | 0 => .atMostOnce
  | 1 => .atLeastOnce
  | _ => .exactlyOnce

/-- The fixed flag pattern the claim requires for a non-Publish type:
`0b0010` for Pubrel/Subscribe/Unsubscribe, `0b0000` otherwise. -/
def claimRequiredFlags (t : Nat) : Nat :=
  if t = 6 ∨ t = 8 ∨ t = 10 then 2 else 0

/-- The classification of a first header byte stated by claim C5 (spec
§4.2 and the fixed-header-exhaustiveness property), phrased over a
`[n, 0]` buffer: type nibble 0 or 15 or a wrong fixed flag pattern is
`InvalidHeader`; a Publish byte with QoS bits `0b11` is `InvalidQos(3)`;
everything else is accepted with the type, dup, QoS and retain encoded in
the byte.  (The error consumption count 1 reflects that `read_header` has
taken the header byte before `Header::new` rejects it.) -/
def claimHeaderByte (n : Nat) : RHResult :=
  let t := n / 16
  let flags := n % 16
  if t = 0 ∨ t = 15 then .err .invalidHeader 1
  else if t = 3 then
    if n / 2 % 4 = 3 then .err (.invalidQos 3) 1
    else .ok (some ({ typ := .publish, dup := n / 8 % 2 = 1,
                      qos := claimQosOf (n / 2 % 4), retain := n % 2 = 1 }, 0, 2))
  else if flags = claimRequiredFlags t then
    .ok (some ({ typ := claimTypeOf t, dup := n / 8 % 2 = 1,
                 qos := claimQosOf (n / 2 % 4), retain := n % 2 = 1 }, 0, 2))
  else .err .invalidHeader 1

/-- The value of a remaining-length byte sequence: byte `i` (from 0)
contributes its low 7 bits times `128 ^ i`, written in Horner form. -/
def varVal : List Nat → Nat
  | [] => 0
  | b :: t => b % 128 + 128 * varVal t

/-! ## Concrete inputs used by the claims -/

/-- The Connect packet of spec scenario A: MQTT311, keep-alive 30, client
id `"doc_client"`, clean session, no will/username/password. -/
def docConnect : Connect :=
  { protocol := .mqtt311, keepAlive := 30,
    clientId := [100, 111, 99, 95, 99, 108, 105, 101, 110, 116],
    cleanSession := true, lastWill := none, username := none, password := none }

/-- The exact bytes `Connect::to_buffer` produces for `docConnect`:
header `0x10`, remaining length 22, protocol section, connect flags `0x02`,
keep-alive `0x001E`, and the length-prefixed client id. -/
def docConnectBytes : List Nat :=
  [16, 22] ++ [0, 4, 77, 81, 84, 84, 4] ++ [2] ++ [0, 30] ++
    ([0, 10] ++ [100, 111, 99, 95, 99, 108, 105, 101, 110, 116])

/-- A minimal Connect packet using the MQIsdp protocol variant. -/
def mqisdpConnect : Connect :=
  { protocol := .mqisdp, keepAlive := 0, clientId := [],
    cleanSession := false, lastWill := none, username := none, password := none }

/-- The buffer contents after `encode_slice(mqisdpConnect)` into a 32-byte
buffer: 16 bytes actually written (two more than the declared remaining
length 12 accounts for) followed by the untouched zeros. -/
def mqisdpEncodedBuf : List Nat :=
  [16, 12, 0, 4, 77, 81, 105, 115, 100, 112, 4, 0, 0, 0, 0, 0] ++ List.replicate 16 0

/-- The 22-byte Connect packet of the repository's own
`inner_length_too_long` test (`src/decoder.rs`): password flag set, but the
password's length prefix 3 exceeds the 2 bytes left in the body. -/
def innerLenBytes : List Nat :=
  [16, 20, 0, 4, 77, 81, 84, 84, 4, 64, 0, 10,
   0, 4, 116, 101, 115, 116, 0, 3, 109, 113]

/-! ## Supporting lemmas -/

theorem readHeaderLoop_zero (bs : List Nat) (pos len : Nat) :
    readHeaderLoop bs 0 pos len = .err .invalidHeader 0 := rfl

theorem readHeaderLoop_succ (bs : List Nat) (fuel pos len : Nat) :
    readHeaderLoop bs (fuel + 1) pos len =
      if bs.length > pos + 1 then
        if bs.getD (pos + 1) 0 % 256 < 128 then
          if bs.length < 2 + pos + (len + bs.getD (pos + 1) 0 % 128 * 128 ^ pos) then .ok none
          else
            match Header.new (bs.getD 0 0) with
            | .error e => .err e 1
            | .ok h => .ok (some (h, len + bs.getD (pos + 1) 0 % 128 * 128 ^ pos, pos + 2))
        else readHeaderLoop bs fuel (pos + 1) (len + bs.getD (pos + 1) 0 % 128 * 128 ^ pos)
      else .ok none := rfl

theorem getD_take_of_lt (l : List Nat) (k i : Nat) (h : i < k) :
    (l.take k).getD i 0 = l.getD i 0 := by
  simp only [List.getD_eq_getElem?_getD, List.getElem?_take, h, if_pos]

/-- Cutting a buffer anywhere strictly inside the span of a successfully
framed packet makes `read_header` report "not yet complete". -/
theorem readHeaderLoop_take_prefix (bs : List Nat) :
    ∀ fuel pos len h rlen hsz,
      readHeaderLoop bs fuel pos len = .ok (some (h, rlen, hsz)) →
      ∀ k, k < hsz + rlen → readHeaderLoop (bs.take k) fuel pos len = .ok none := by
  intro fuel
  induction fuel with
  | zero =>
    intro pos len h rlen hsz hres
    rw [readHeaderLoop_zero] at hres
    simp at hres
  | succ fuel ih =>
    intro pos len h rlen hsz hres k hk
    rw [readHeaderLoop_succ] at hres
    rw [readHeaderLoop_succ]
    by_cases hbl : bs.length > pos + 1
    · rw [if_pos hbl] at hres
      by_cases hkp : k ≤ pos + 1
      · rw [if_neg (by simp only [List.length_take]; omega)]
      · have hik : pos + 1 < k := by omega
        have hgd : (bs.take k).getD (pos + 1) 0 = bs.getD (pos + 1) 0 :=
          getD_take_of_lt bs k (pos + 1) hik
        by_cases hbyte : bs.getD (pos + 1) 0 % 256 < 128
        · rw [if_pos hbyte] at hres
          by_cases hfull : bs.length < 2 + pos + (len + bs.getD (pos + 1) 0 % 128 * 128 ^ pos)
          · rw [if_pos hfull] at hres; simp at hres
          · rw [if_neg hfull] at hres
            rcases hH : Header.new (bs.getD 0 0) with e | hh
            · rw [hH] at hres; simp at hres
            · rw [hH] at hres
              have hrlen : rlen = len + bs.getD (pos + 1) 0 % 128 * 128 ^ pos ∧ hsz = pos + 2 := by
                simp only [RHResult.ok.injEq, Option.some.injEq, Prod.mk.injEq] at hres
                exact ⟨hres.2.1.symm, hres.2.2.symm⟩
              rw [if_pos (by simp only [List.length_take]; omega), hgd, if_pos hbyte,
                if_pos (by simp only [List.length_take]; omega)]
        · rw [if_neg hbyte] at hres
          rw [if_pos (by simp only [List.length_take]; omega), hgd, if_neg hbyte]
          exact ih (pos + 1) _ h rlen hsz hres k hk
    · rw [if_neg hbl] at hres; simp at hres

/-- Invariant of the remaining-length loop: starting at byte position
`pos` with accumulator `len` and `fuel` iterations left, a successfully
parsed value `v` satisfies `v + 128 ^ pos ≤ len + 128 ^ (pos + fuel)`. -/
theorem readHeaderLoop_val_bound (bs : List Nat) :
    ∀ fuel pos len h v hsz,
      readHeaderLoop bs fuel pos len = .ok (some (h, v, hsz)) →
      v + 128 ^ pos ≤ len + 128 ^ (pos + fuel) := by
  intro fuel
  induction fuel with
  | zero =>
    intro pos len h v hsz hres
    rw [readHeaderLoop_zero] at hres
    simp at hres
  | succ fuel ih =>
    intro pos len h v hsz hres
    rw [readHeaderLoop_succ] at hres
    by_cases hbl : bs.length > pos + 1
    · rw [if_pos hbl] at hres
      by_cases hbyte : bs.getD (pos + 1) 0 % 256 < 128
      · rw [if_pos hbyte] at hres
        by_cases hfull : bs.length < 2 + pos + (len + bs.getD (pos + 1) 0 % 128 * 128 ^ pos)
        · rw [if_pos hfull] at hres; simp at hres
        · rw [if_neg hfull] at hres
          rcases hH : Header.new (bs.getD 0 0) with e | hh
          · rw [hH] at hres; simp at hres
          · rw [hH] at hres
            simp only [RHResult.ok.injEq, Option.some.injEq, Prod.mk.injEq] at hres
            have hv : v = len + bs.getD (pos + 1) 0 % 128 * 128 ^ pos := hres.2.1.symm
            have hm : bs.getD (pos + 1) 0 % 128 * 128 ^ pos ≤ 127 * 128 ^ pos :=
              Nat.mul_le_mul_right _ (Nat.le_of_lt_succ (Nat.mod_lt _ (by norm_num)))
            have hpow : (128 : Nat) ^ (pos + 1) ≤ 128 ^ (pos + (fuel + 1)) :=
              Nat.pow_le_pow_right (by norm_num) (by omega)
            have hps : (128 : Nat) ^ (pos + 1) = 128 ^ pos * 128 := pow_succ 128 pos
            omega
      · rw [if_neg hbyte] at hres
        have hrec := ih (pos + 1) _ h v hsz hres
        have hE : pos + 1 + fuel = pos + (fuel + 1) := by omega
        rw [hE] at hrec
        have hm : bs.getD (pos + 1) 0 % 128 * 128 ^ pos ≤ 127 * 128 ^ pos :=
          Nat.mul_le_mul_right _ (Nat.le_of_lt_succ (Nat.mod_lt _ (by norm_num)))
        have hps : (128 : Nat) ^ (pos + 1) = 128 ^ pos * 128 := pow_succ 128 pos
        omega
    · rw [if_neg hbl] at hres; simp at hres

/-- A remaining-length field of `lb` continuation bytes (at most three)
closed by a terminating byte parses to `varVal (lb ++ [last])` whenever the
buffer holds the whole packet; `read_header` consumes `lb.length + 2`
fixed-header bytes. -/
theorem readHeader_terminates (h0 last : Nat) (lb rest : List Nat) (hd : Header)
    (hlen : lb.length ≤ 3) (hcont : ∀ x ∈ lb, 128 ≤ x % 256)
    (hlast : last % 256 < 128) (hhd : Header.new h0 = .ok hd)
    (hfit : 2 + lb.length + varVal (lb ++ [last]) ≤ (h0 :: (lb ++ last :: rest)).length) :
    readHeader (h0 :: (lb ++ last :: rest)) =
      .ok (some (hd, varVal (lb ++ [last]), lb.length + 2)) := by
  rcases lb with _ | ⟨a, _ | ⟨b, _ | ⟨c, _ | ⟨d, tl⟩⟩⟩⟩
  · simp only [List.singleton_append, List.cons_append, List.nil_append, List.length_cons,
      List.length_nil, varVal, Nat.mul_zero, Nat.add_zero] at hfit ⊢
    unfold readHeader
    rw [readHeaderLoop_succ]
    simp only [List.singleton_append, List.cons_append, List.nil_append, List.getD_cons_succ,
      List.getD_cons_zero, List.length_cons, pow_zero, mul_one, Nat.zero_add]
    rw [if_pos (by omega), if_pos hlast, if_neg (by omega), hhd]
  · have ha : 128 ≤ a % 256 := hcont a (by simp)
    simp only [List.singleton_append, List.cons_append, List.nil_append, List.length_cons,
      List.length_nil, varVal, Nat.mul_zero, Nat.add_zero] at hfit ⊢
    unfold readHeader
    rw [readHeaderLoop_succ]
    simp only [List.singleton_append, List.cons_append, List.nil_append, List.getD_cons_succ,
      List.getD_cons_zero, List.length_cons, pow_zero, mul_one, Nat.zero_add]
    rw [if_pos (by omega), if_neg (by omega)]
    rw [readHeaderLoop_succ]
    simp only [List.getD_cons_succ, List.getD_cons_zero, List.length_cons, pow_one]
    rw [if_pos (by omega), if_pos hlast, if_neg (by omega), hhd]
    ring_nf
  · have ha : 128 ≤ a % 256 := hcont a (by simp)
    have hb : 128 ≤ b % 256 := hcont b (by simp)
    simp only [List.singleton_append, List.cons_append, List.nil_append, List.length_cons,
      List.length_nil, varVal, Nat.mul_zero, Nat.add_zero] at hfit ⊢
    unfold readHeader
    rw [readHeaderLoop_succ]
    simp only [List.singleton_append, List.cons_append, List.nil_append, List.getD_cons_succ,
      List.getD_cons_zero, List.length_cons, pow_zero, mul_one, Nat.zero_add]
    rw [if_pos (by omega), if_neg (by omega)]
    rw [readHeaderLoop_succ]
    simp only [List.getD_cons_succ, List.getD_cons_zero, List.length_cons, pow_one]
    rw [if_pos (by omega), if_neg (by omega)]
    rw [readHeaderLoop_succ]
    simp only [List.getD_cons_succ, List.getD_cons_zero, List.length_cons]
    rw [if_pos (by omega), if_pos hlast, if_neg (by omega), hhd]
    ring_nf
  · have ha : 128 ≤ a % 256 := hcont a (by simp)
    have hb : 128 ≤ b % 256 := hcont b (by simp)
    have hc : 128 ≤ c % 256 := hcont c (by simp)
    simp only [List.singleton_append, List.cons_append, List.nil_append, List.length_cons,
      List.length_nil, varVal, Nat.mul_zero, Nat.add_zero] at hfit ⊢
    unfold readHeader
    rw [readHeaderLoop_succ]
    simp only [List.singleton_append, List.cons_append, List.nil_append, List.getD_cons_succ,
      List.getD_cons_zero, List.length_cons, pow_zero, mul_one, Nat.zero_add]
    rw [if_pos (by omega), if_neg (by omega)]
    rw [readHeaderLoop_succ]
    simp only [List.getD_cons_succ, List.getD_cons_zero, List.length_cons, pow_one]
    rw [if_pos (by omega), if_neg (by omega)]
    rw [readHeaderLoop_succ]
    simp only [List.getD_cons_succ, List.getD_cons_zero, List.length_cons]
    rw [if_pos (by omega), if_neg (by omega)]
    rw [readHeaderLoop_succ]
    simp only [List.getD_cons_succ, List.getD_cons_zero, List.length_cons]
    rw [if_pos (by omega), if_pos hlast, if_neg (by omega), hhd]
    ring_nf
  · simp at hlen

/-- A buffer that ends while every present length byte still has its
continuation bit set (at most three of them) is "not yet complete". -/
theorem readHeader_incomplete (h0 : Nat) (lb : List Nat) (hlen : lb.length ≤ 3)
    (hcont : ∀ x ∈ lb, 128 ≤ x % 256) : readHeader (h0 :: lb) = .ok none := by
  rcases lb with _ | ⟨a, _ | ⟨b, _ | ⟨c, _ | ⟨d, tl⟩⟩⟩⟩
  · unfold readHeader
    rw [readHeaderLoop_succ]
    simp
  · have ha : 128 ≤ a % 256 := hcont a (by simp)
    unfold readHeader
    rw [readHeaderLoop_succ]
    simp only [List.getD_cons_succ, List.getD_cons_zero, List.length_cons, List.length_nil,
      pow_zero, mul_one, Nat.zero_add]
    rw [if_pos (by omega), if_neg (by omega)]
    rw [readHeaderLoop_succ]
    rw [if_neg (by simp)]
  · have ha : 128 ≤ a % 256 := hcont a (by simp)
    have hb : 128 ≤ b % 256 := hcont b (by simp)
    unfold readHeader
    rw [readHeaderLoop_succ]
    simp only [List.getD_cons_succ, List.getD_cons_zero, List.length_cons, List.length_nil,
      pow_zero, mul_one, Nat.zero_add]
    rw [if_pos (by omega), if_neg (by omega)]
    rw [readHeaderLoop_succ]
    simp only [List.getD_cons_succ, List.getD_cons_zero, List.length_cons, List.length_nil,
      pow_one]
    rw [if_pos (by omega), if_neg (by omega)]
    rw [readHeaderLoop_succ]
    rw [if_neg (by simp)]
  · have ha : 128 ≤ a % 256 := hcont a (by simp)
    have hb : 128 ≤ b % 256 := hcont b (by simp)
    have hc : 128 ≤ c % 256 := hcont c (by simp)
    unfold readHeader
    rw [readHeaderLoop_succ]
    simp only [List.getD_cons_succ, List.getD_cons_zero, List.length_cons, List.length_nil,
      pow_zero, mul_one, Nat.zero_add]
    rw [if_pos (by omega), if_neg (by omega)]
    rw [readHeaderLoop_succ]
    simp only [List.getD_cons_succ, List.getD_cons_zero, List.length_cons, List.length_nil,
      pow_one]
    rw [if_pos (by omega), if_neg (by omega)]
    rw [readHeaderLoop_succ]
    simp only [List.getD_cons_succ, List.getD_cons_zero, List.length_cons, List.length_nil]
    rw [if_pos (by omega), if_neg (by omega)]
    rw [readHeaderLoop_succ]
    rw [if_neg (by simp)]
  · simp at hlen

/-- Four length bytes with the continuation bit set exhaust the loop:
`InvalidHeader`, with nothing consumed. -/
theorem readHeader_contOverflow (h0 : Nat) (lb rest : List Nat) (hlen4 : lb.length = 4)
    (hcont : ∀ x ∈ lb, 128 ≤ x % 256) :
    readHeader (h0 :: (lb ++ rest)) = .err .invalidHeader 0 := by
  rcases lb with _ | ⟨a, _ | ⟨b, _ | ⟨c, _ | ⟨d, tl⟩⟩⟩⟩
  · simp at hlen4
  · simp at hlen4
  · simp at hlen4
  · simp at hlen4
  · have htl : tl = [] := by
      simp at hlen4
      exact hlen4
    subst htl
    have ha : 128 ≤ a % 256 := hcont a (by simp)
    have hb : 128 ≤ b % 256 := hcont b (by simp)
    have hc : 128 ≤ c % 256 := hcont c (by simp)
    have hdd : 128 ≤ d % 256 := hcont d (by simp)
    unfold readHeader
    rw [readHeaderLoop_succ]
    simp only [List.cons_append, List.nil_append, List.getD_cons_succ, List.getD_cons_zero,
      List.length_cons, List.length_append, pow_zero, mul_one, Nat.zero_add]
    rw [if_pos (by omega), if_neg (by omega)]
    rw [readHeaderLoop_succ]
    simp only [List.cons_append, List.nil_append, List.getD_cons_succ, List.getD_cons_zero,
      List.length_cons, List.length_append, pow_one]
    rw [if_pos (by omega), if_neg (by omega)]
    rw [readHeaderLoop_succ]
    simp only [List.cons_append, List.nil_append, List.getD_cons_succ, List.getD_cons_zero,
      List.length_cons, List.length_append]
    rw [if_pos (by omega), if_neg (by omega)]
    rw [readHeaderLoop_succ]
    simp only [List.cons_append, List.nil_append, List.getD_cons_succ, List.getD_cons_zero,
      List.length_cons, List.length_append]
    rw [if_pos (by omega), if_neg (by omega)]
    rw [readHeaderLoop_zero]

/-- A `decode` that returns a packet consuming the whole buffer must have
framed it: `read_header` succeeded and header size plus remaining length is
the buffer length. -/
theorem decode_full_inv (bs : List Nat) (p : Packet)
    (hdec : decode bs = .ok (some p) bs.length) :
    ∃ h rlen hsz, readHeader bs = .ok (some (h, rlen, hsz)) ∧ hsz + rlen = bs.length := by
  unfold decode at hdec
  cases hrh : readHeader bs with
  | err e c => rw [hrh] at hdec; simp at hdec
  | ok r =>
    cases r with
    | none => rw [hrh] at hdec; simp at hdec
    | some t =>
      obtain ⟨h, rlen, hsz⟩ := t
      rw [hrh] at hdec
      dsimp only at hdec
      refine ⟨h, rlen, hsz, rfl, ?_⟩
      cases hrp : readPacket h ((bs.drop hsz).take rlen) with
      | ok p' =>
        rw [hrp] at hdec
        simp only [DecodeResult.ok.injEq] at hdec
        exact hdec.2
      | error f =>
        cases f with
        | err e => rw [hrp] at hdec; simp at hdec
        | crash => rw [hrp] at hdec; simp at hdec

/-! ## Claim theorems -/

/-- C1: the claimed encode/decode round-trip fails on the code for a
Connect packet with protocol MQIsdp.  `encode_slice` succeeds (into a large
buffer) and reports 14 bytes, but it has written 16 bytes — the MQIsdp
protocol section is emitted as `00 04 'M' 'Q' 'i' 's' 'd' 'p' 04` (length
prefix 4 in front of six name bytes, level 4) while the remaining length
counts it as seven bytes — and decoding the reported 14 bytes fails with
`InvalidProtocol("MQis", 0)` instead of returning the packet. -/
theorem c1_mqisdp_roundtrip_fails :
    encodeSlice (.connect mqisdpConnect) (List.replicate 32 0) =
      .ok (14, mqisdpEncodedBuf, 16) ∧
    decode (mqisdpEncodedBuf.take 14) = .err (.invalidProtocol [77, 81, 105, 115] 0) 14 :=
  ⟨by decide, by decide⟩

/-- C2: partial-read safety.  If `decode` parses a packet from `bs`
consuming the whole buffer, then `decode` of every strict prefix returns
`Ok(None)` with nothing consumed (the decoder never mutates the buffer, so
"contents unchanged" holds by construction; "position unchanged" is the
consumed count 0). -/
theorem c2_prefix_returns_none (bs : List Nat) (p : Packet)
    (hdec : decode bs = .ok (some p) bs.length) :
    ∀ k, k < bs.length → decode (bs.take k) = .ok none 0 := by
  obtain ⟨h, rlen, hsz, hrh, hlen⟩ := decode_full_inv bs p hdec
  intro k hk
  have hpref : readHeader (bs.take k) = .ok none :=
    readHeaderLoop_take_prefix bs 4 0 0 h rlen hsz hrh k (by omega)
  unfold decode
  rw [show readHeader (bs.take k) = .ok none from hpref]

/-- Witness for C2 at the two-byte Pingreq packet and its one-byte
prefix. -/
theorem c2_prefix_returns_none_witness :
    decode [192, 0] = .ok (some .pingreq) [192, 0].length ∧
    decode ([192, 0].take 1) = .ok none 0 :=
  ⟨by decide, c2_prefix_returns_none [192, 0] .pingreq (by decide) 1 (by decide)⟩

/-- C3: the totality claim fails on the code.  A complete Puback packet
with remaining length 1 (bytes `40 01 00`) makes `read_packet` call
`Pid::from_buffer` on a one-byte body; `Buf::get_u16` asserts that two
bytes remain and panics, instead of `decode` returning an error value. -/
theorem c3_puback_short_body_crashes : decode [64, 1, 0] = .crash := by decide

/-- C4 counterexample: a complete Pingresp packet with remaining length 5
decodes to `Ok(Pingresp)` consuming all 7 bytes — not
`Err(InvalidLength)` as the claim states. -/
theorem c4_leftover_counterexample :
    decode [208, 5, 0, 0, 0, 0, 0] = .ok (some .pingresp) 7 ∧
    decode [208, 5, 0, 0, 0, 0, 0] ≠ .err .invalidLength 7 :=
  ⟨by decide, by decide⟩

/-- C4 (amended): `decode` does not compare the bytes a body decoder
consumed with the declared remaining length; leftover body bytes are
silently skipped.  A complete Pingreq packet with any remaining length
(and arbitrary body bytes) decodes to `Ok(Pingreq)` consuming the whole
declared span, and a Connack with remaining length 3 likewise ignores its
extra byte. -/
theorem c4_leftover_ignored :
    (∀ body : List Nat, body.length ≤ 127 →
      decode (192 :: body.length :: body) = .ok (some .pingreq) (2 + body.length)) ∧
    decode [32, 3, 0, 0, 99] = .ok (some (.connack ⟨false, .accepted⟩)) 5 := by
  constructor
  · intro body hlen
    have hmod : body.length % 256 = body.length := Nat.mod_eq_of_lt (by omega)
    have hmod7 : body.length % 128 = body.length := Nat.mod_eq_of_lt (by omega)
    unfold decode readHeader
    simp only [readHeaderLoop, List.getD_cons_zero, List.getD_cons_succ, List.length_cons,
      hmod, hmod7, pow_zero, mul_one, Nat.zero_add]
    rw [if_pos (by omega), if_pos (by omega), if_neg (by omega)]
    simp [readPacket, Header.new, QoS.fromU8]
  · decide

/-- Witness for C4 (amended) at a Pingreq with a five-byte ignored body. -/
theorem c4_leftover_ignored_witness :
    decode [192, 5, 0, 0, 0, 0, 0] = .ok (some .pingreq) 7 := by
  have h := c4_leftover_ignored.1 [0, 0, 0, 0, 0] (by decide)
  simpa using h

set_option maxRecDepth 10000 in
/-- C5: over all 256 first header bytes followed by remaining length 0,
`read_header` classifies exactly as the claim states (`claimHeaderByte`):
legal type/flag combinations are accepted with the encoded type, dup, QoS
and retain; a Publish byte with QoS bits `0b11` is `InvalidQos(3)`; type
nibble 0 or 15 or a wrong fixed flag pattern is `InvalidHeader`. -/
theorem c5_header_byte_classification :
    ∀ n, n < 256 → readHeader [n, 0] = claimHeaderByte n := by decide

/-- Witness for C5 at the Publish byte `0x30`. -/
theorem c5_header_byte_classification_witness :
    48 < 256 ∧ readHeader [48, 0] = claimHeaderByte 48 :=
  ⟨by decide, c5_header_byte_classification 48 (by decide)⟩

/-- C6: the remaining-length decoder (1) terminates on a high-bit-clear
byte after at most three continuation bytes, valuing byte `i` at its low
7 bits times `128 ^ i` (`varVal`); (2) reports "not yet complete" when the
buffer ends before a terminating byte; (3) rejects four continuation bytes
with `InvalidHeader`; (4) never yields a value above 268435455. -/
theorem c6_varint_decoder :
    (∀ (h0 last : Nat) (lb rest : List Nat) (hd : Header), lb.length ≤ 3 →
      (∀ x ∈ lb, 128 ≤ x % 256) → last % 256 < 128 → Header.new h0 = .ok hd →
      2 + lb.length + varVal (lb ++ [last]) ≤ (h0 :: (lb ++ last :: rest)).length →
      readHeader (h0 :: (lb ++ last :: rest)) =
        .ok (some (hd, varVal (lb ++ [last]), lb.length + 2))) ∧
    (∀ (h0 : Nat) (lb : List Nat), lb.length ≤ 3 → (∀ x ∈ lb, 128 ≤ x % 256) →
      readHeader (h0 :: lb) = .ok none) ∧
    (∀ (h0 : Nat) (lb rest : List Nat), lb.length = 4 → (∀ x ∈ lb, 128 ≤ x % 256) →
      readHeader (h0 :: (lb ++ rest)) = .err .invalidHeader 0) ∧
    (∀ (bs : List Nat) (hd : Header) (v hsz : Nat),
      readHeader bs = .ok (some (hd, v, hsz)) → v ≤ 268435455) := by
  refine ⟨readHeader_terminates, readHeader_incomplete, readHeader_contOverflow, ?_⟩
  intro bs hd v hsz hres
  have hb := readHeaderLoop_val_bound bs 4 0 0 hd v hsz hres
  norm_num at hb
  omega

set_option maxRecDepth 10000 in
/-- Witness for C6: a two-byte length field `81 01` valuing 129, an
unfinished field `80 80`, a four-continuation-byte field, and the bound at
a parsed value. -/
theorem c6_varint_decoder_witness :
    readHeader (16 :: ([129] ++ 1 :: List.replicate 129 0)) =
      .ok (some (⟨.connect, false, .atMostOnce, false⟩, varVal ([129] ++ [1]), [129].length + 2)) ∧
    readHeader (16 :: [128, 128]) = .ok none ∧
    readHeader (16 :: ([128, 128, 128, 128] ++ [7])) = .err .invalidHeader 0 ∧
    0 ≤ 268435455 :=
  ⟨c6_varint_decoder.1 16 1 [129] (List.replicate 129 0) ⟨.connect, false, .atMostOnce, false⟩
      (by decide) (by decide) (by decide) (by decide) (by decide),
    c6_varint_decoder.2.1 16 [128, 128] (by decide) (by decide),
    c6_varint_decoder.2.2.1 16 [128, 128, 128, 128] [7] (by decide) (by decide),
    c6_varint_decoder.2.2.2 [192, 0] ⟨.pingreq, false, .atMostOnce, false⟩ 0 2 (by decide)⟩

/-- C7: `Pid::try_from(0)` is `InvalidPid`, and for every Pid value
`1..=65535` and every `u16` offset, both wrapping addition and wrapping
subtraction stay in `1..=65535` (never 0), with `65535 + 1 = 1` and
`1 - 1 = 65535`. -/
theorem c7_pid_nonzero :
    pidTryFrom 0 = .error .invalidPid ∧
    (∀ p d, 1 ≤ p → p ≤ 65535 → d ≤ 65535 →
      1 ≤ pidAdd p d ∧ pidAdd p d ≤ 65535 ∧ 1 ≤ pidSub p d ∧ pidSub p d ≤ 65535) ∧
    pidAdd 65535 1 = 1 ∧ pidSub 1 1 = 65535 := by
  refine ⟨by decide, ?_, by decide, by decide⟩
  intro p d h1 h2 h3
  unfold pidAdd pidSub
  refine ⟨?_, ?_, ?_, ?_⟩ <;> split_ifs <;> omega

/-- Witness for C7 at Pid 10 and offset 65535. -/
theorem c7_pid_nonzero_witness :
    (1 ≤ 10 ∧ 10 ≤ 65535 ∧ 65535 ≤ 65535) ∧
    (1 ≤ pidAdd 10 65535 ∧ pidAdd 10 65535 ≤ 65535 ∧
      1 ≤ pidSub 10 65535 ∧ pidSub 10 65535 ≤ 65535) :=
  ⟨⟨by decide, by decide, by decide⟩,
    c7_pid_nonzero.2.1 10 65535 (by decide) (by decide) (by decide)⟩

/-- C8 counterexample: encoding the documentation Connect packet produces
remaining-length byte 22 (0x16), not 12 as the claim states (12 cannot be
right: the body bytes the claim itself lists count 7 + 1 + 2 + 12 = 22). -/
theorem c8_doc_connect_counterexample :
    encodeSlice (.connect docConnect) (List.replicate 64 0) =
      .ok (24, docConnectBytes ++ List.replicate 40 0, 24) ∧
    docConnectBytes.getD 1 0 = 22 ∧ (22 : Nat) ≠ 12 :=
  ⟨by decide, by decide, by decide⟩

/-- C8 (amended): the documentation Connect packet encodes to exactly
header `0x10`, remaining length 22, protocol section `00 04 'M' 'Q' 'T' 'T'
04`, connect flags `0x02`, keep-alive `00 1E`, and `00 0A` followed by the
ten bytes of `"doc_client"` — 24 bytes reported, written at the front of
the 64-byte buffer. -/
theorem c8_doc_connect_encoding :
    encodeSlice (.connect docConnect) (List.replicate 64 0) =
      .ok (24, docConnectBytes ++ List.replicate 40 0, 24) := by decide

/-- C9: the no-overrun claim fails on the code.  Encoding the MQIsdp
Connect packet into a buffer of exactly the checked capacity
(1 + 1 + 12 = 14 bytes) panics with an out-of-bounds index instead of
returning `WriteZero`: `Connect::to_buffer` counts the MQIsdp protocol
section as 7 bytes but writes 9, so `write_u8` runs past the check. -/
theorem c9_mqisdp_overruns_check :
    encodeSlice (.connect mqisdpConnect) (List.replicate 14 0) = .error .crash := by decide

/-- C10: whenever `read_header` frames a complete packet (header size
`hsz`, remaining length `rlen`) and `decode` returns an error, the buffer
has been advanced by exactly `hsz + rlen` bytes — the whole packet — so the
caller is positioned at the next packet, not at the failed one. -/
theorem c10_error_consumes_packet (bs : List Nat) (e : Error) (c : Nat)
    (h : Header) (rlen hsz : Nat)
    (hdec : decode bs = .err e c)
    (hhd : readHeader bs = .ok (some (h, rlen, hsz))) : c = hsz + rlen := by
  unfold decode at hdec
  rw [hhd] at hdec
  dsimp only at hdec
  cases hrp : readPacket h ((bs.drop hsz).take rlen) with
  | ok p => rw [hrp] at hdec; simp at hdec
  | error f =>
    cases f with
    | err e' =>
      rw [hrp] at hdec
      simp only [DecodeResult.err.injEq] at hdec
      omega
    | crash => rw [hrp] at hdec; simp at hdec

/-- Witness for C10 at the repository's own `inner_length_too_long` test
input: the 22-byte Connect packet whose password length is invalid decodes
to `Err(InvalidLength)` with all 22 bytes (2 header + 20 body) consumed. -/
theorem c10_error_consumes_packet_witness :
    decode innerLenBytes = .err .invalidLength 22 ∧ 22 = 2 + 20 :=
  ⟨by decide,
    c10_error_consumes_packet innerLenBytes .invalidLength 22
      ⟨.connect, false, .atMostOnce, false⟩ 20 2 (by decide) (by decide)⟩

end Mqttrs
